import Mathlib

/-!
Shallow embedding of `src/integracion_limpieza_datos.py`, a pandas ETL
script that loads two CSV tables (`ventas.csv`, `clientes.csv`),
inner-merges them on `cliente_id`, repairs the `importe` column
(negatives to 0, then mean imputation of missing values), fills missing
`nombre_cliente` with the sentinel "Desconocido", normalizes
`fecha_venta` (parse, drop unparsable, filter to [2000-01-01, today],
reformat as YYYY-MM-DD) and writes the result to `dataset_integrado.csv`.

Tables are modelled as a fixed column list plus a list of rows, each row
an association list from column name to a typed cell value.  Numeric
cells are rationals (the script's floats, with exact arithmetic), the
pandas missing markers NaN/NaT are the single `Value.null`, and parsed
datetime cells are `Value.date`.  The wall-clock upper bound of the date
range filter (`pd.to_datetime('today')`, line 92) is passed in as an
explicit `today : Date` parameter.
-/

/-- A calendar date, as carried by a pandas `Timestamp` at day
granularity (the script only ever compares and prints dates, never
times; a date string parses to midnight, and midnight of the current
day is `<=` the current instant, so the day-granularity comparison is
faithful to lines 95-98). -/
structure Date where
  year : Nat
  month : Nat
  day : Nat
deriving DecidableEq, Repr

/-- Lexicographic order on dates, matching pandas `Timestamp` order. -/
def Date.le (a b : Date) : Prop :=
  a.year < b.year ∨ (a.year = b.year ∧
    (a.month < b.month ∨ (a.month = b.month ∧ a.day ≤ b.day)))

instance : LE Date := ⟨Date.le⟩

instance (a b : Date) : Decidable (a ≤ b) :=
  inferInstanceAs (Decidable (a.year < b.year ∨ (a.year = b.year ∧
    (a.month < b.month ∨ (a.month = b.month ∧ a.day ≤ b.day)))))

/-- A cell value: a number, a string, a parsed datetime, or the pandas
missing marker (NaN / NaT / None). -/
inductive Value where
  | num (q : ℚ)
  | str (s : String)
  | date (d : Date)
  | null
deriving DecidableEq, Repr

/-- A row: an association list from column name to cell value. -/
abbrev Row := List (String × Value)

/-- A DataFrame: a fixed column list and an ordered list of rows. -/
structure Table where
  cols : List String
  rows : List Row
deriving DecidableEq, Repr

/-- Look up a cell value by column name (first matching entry). -/
def getVal : Row → String → Option Value
  | [], _ => none
  | (k, v) :: rest, key => if k = key then some v else getVal rest key

/-- Overwrite the cell at a column name; a no-op when the column is
absent from the row (the script's column-membership guards ensure the
column exists before any assignment). -/
def setVal : Row → String → Value → Row
  | [], _, _ => []
  | (k, v) :: rest, key, nv =>
      if k = key then (k, nv) :: rest else (k, v) :: setVal rest key nv

/-- Drop every entry of a given column from a row (`pd.merge` keeps a
single copy of the join key, taken from the left row). -/
def removeKey : Row → String → Row
  | [], _ => []
  | (k, v) :: rest, key =>
      if k = key then removeKey rest key else (k, v) :: removeKey rest key

/-- Line 25, `pd.merge(..., on='cliente_id', ...)`: equality of the
join-key cells of a sales row and a customers row.  pandas matches NaN
join keys with NaN, so plain cell equality (with `null = null`) is the
faithful model. -/
def keyEq (s r : Row) : Bool :=
  decide (getVal s "cliente_id" = getVal r "cliente_id")

/-- The concatenation of a sales row and a matched customers row: all
left columns followed by the right columns minus the join key. -/
def combineRow (s r : Row) : Row :=
  s ++ removeKey r "cliente_id"

/-- Line 25: `merged_df = pd.merge(ventas_df, clientes_df,
on='cliente_id', how='inner')`.  For each left row in order, one output
row per matching right row in order. -/
def mergeTables (ventas clientes : Table) : Table :=
  ⟨ventas.cols ++ clientes.cols.filter (fun c => decide (c ≠ "cliente_id")),
   ventas.rows.flatMap (fun s =>
     (clientes.rows.filter (fun r => keyEq s r)).map (combineRow s))⟩

/-- Line 53, `merged_df.loc[merged_df['importe'] < 0, 'importe'] = 0`
applied to one row: a negative numeric `importe` becomes 0; `NaN < 0`
is false in pandas, so missing values are untouched. -/
def fixNegRow (r : Row) : Row :=
  match getVal r "importe" with
  | some (.num q) => if q < 0 then setVal r "importe" (.num 0) else r
  | _ => r

/-- Lines 51-54: the negative-correction step over the whole table. -/
def fixNegatives (t : Table) : Table :=
  ⟨t.cols, t.rows.map fixNegRow⟩

/-- The numeric content of a row's `importe` cell, `none` when the
cell is missing, absent or non-numeric. -/
def importeOf (r : Row) : Option ℚ :=
  match getVal r "importe" with
  | some (.num q) => some q
  | _ => none

/-- The non-missing numeric values of the `importe` column, in row
order (the multiset over which pandas `Series.mean` averages). -/
def importeVals (t : Table) : List ℚ :=
  t.rows.filterMap importeOf

/-- Line 59, `mean_importe = merged_df['importe'].mean()`: the
arithmetic mean of the non-missing `importe` values; `none` models the
NaN that pandas returns when every value is missing. -/
def meanImporte (t : Table) : Option ℚ :=
  let vs := importeVals t
  if vs.isEmpty then none else some (vs.sum / (vs.length : ℚ))

/-- Line 60, `merged_df['importe'].fillna(mean_importe, ...)` applied
to one row: a missing `importe` is overwritten with the mean when the
mean is a number; `fillna(NaN)` leaves the cell missing. -/
def fillImporteRow (m : Option ℚ) (r : Row) : Row :=
  match getVal r "importe", m with
  | some .null, some q => setVal r "importe" (.num q)
  | _, _ => r

/-- Lines 46-61: the whole `importe` sanitization block.  Guarded by
`if 'importe' in merged_df.columns`; first negatives are corrected,
then the mean of the corrected column fills the missing values.  (The
script's `> 0` / `.any()` sub-guards at lines 52 and 58 only skip
no-op assignments and do not change the result.) -/
def sanitizeImporte (t : Table) : Table :=
  if "importe" ∈ t.cols then
    let t1 := fixNegatives t
    ⟨t1.cols, t1.rows.map (fillImporteRow (meanImporte t1))⟩
  else t

/-- Line 68, `merged_df['nombre_cliente'].fillna('Desconocido', ...)`
applied to one row. -/
def fillNombreRow (r : Row) : Row :=
  match getVal r "nombre_cliente" with
  | some .null => setVal r "nombre_cliente" (.str "Desconocido")
  | _ => r

/-- Lines 66-69: the `nombre_cliente` fill, guarded by column
membership (the `.isnull().any()` sub-guard only skips a no-op fill). -/
def fillNombre (t : Table) : Table :=
  if "nombre_cliente" ∈ t.cols then ⟨t.cols, t.rows.map fillNombreRow⟩ else t

/-- The numeric value of one ASCII digit character. -/
def digitVal (c : Char) : Option Nat :=
  if c = '0' then some 0 else if c = '1' then some 1 else if c = '2' then some 2
  else if c = '3' then some 3 else if c = '4' then some 4 else if c = '5' then some 5
  else if c = '6' then some 6 else if c = '7' then some 7 else if c = '8' then some 8
  else if c = '9' then some 9 else none

/-- The ASCII digit character of a value below ten. -/
def charOfDigit (n : Nat) : Char :=
  if n = 0 then '0' else if n = 1 then '1' else if n = 2 then '2'
  else if n = 3 then '3' else if n = 4 then '4' else if n = 5 then '5'
  else if n = 6 then '6' else if n = 7 then '7' else if n = 8 then '8' else '9'

/-- Gregorian leap-year test, as used by the pandas calendar. -/
def isLeapYear (y : Nat) : Bool :=
  (y % 4 == 0 && y % 100 != 0) || y % 400 == 0

/-- Days in a month of the Gregorian calendar. -/
def daysInMonth (y m : Nat) : Nat :=
  if m = 2 then (if isLeapYear y then 29 else 28)
  else if m = 4 ∨ m = 6 ∨ m = 9 ∨ m = 11 then 30 else 31

/-- A calendar-valid date (month in range, day within the month). -/
def validDate (y m d : Nat) : Bool :=
  decide (1 ≤ m) && decide (m ≤ 12) && decide (1 ≤ d) && decide (d ≤ daysInMonth y m)

/-- Parse a zero-padded `YYYY-MM-DD` character sequence into a
calendar-checked date. -/
def parseYMD : List Char → Option Date
  | [c1, c2, c3, c4, c5, c6, c7, c8, c9, c10] =>
    if c5 = '-' ∧ c8 = '-' then
      (digitVal c1).bind fun n1 =>
      (digitVal c2).bind fun n2 =>
      (digitVal c3).bind fun n3 =>
      (digitVal c4).bind fun n4 =>
      (digitVal c6).bind fun n5 =>
      (digitVal c7).bind fun n6 =>
      (digitVal c9).bind fun n7 =>
      (digitVal c10).bind fun n8 =>
      if validDate (1000 * n1 + 100 * n2 + 10 * n3 + n4) (10 * n5 + n6) (10 * n7 + n8)
      then some ⟨1000 * n1 + 100 * n2 + 10 * n3 + n4, 10 * n5 + n6, 10 * n7 + n8⟩
      else none
    else none
  | _ => none

/-- Line 78, `pd.to_datetime(..., errors='coerce')` on one string cell,
restricted to the canonical ISO `YYYY-MM-DD` representation (the one
form the script itself emits; pandas parses it to the same calendar
date and coerces calendar-invalid strings such as "2022-13-40" to
NaT, modelled by `none`). -/
def parseDate (s : String) : Option Date :=
  parseYMD s.data

/-- Line 104, `.dt.strftime('%Y-%m-%d')` on one datetime cell:
zero-padded four-digit year, two-digit month and day, ISO order. -/
def formatDate (d : Date) : String :=
  String.mk (charOfDigit (d.year / 1000 % 10) :: charOfDigit (d.year / 100 % 10) ::
    charOfDigit (d.year / 10 % 10) :: charOfDigit (d.year % 10) :: '-' ::
    charOfDigit (d.month / 10 % 10) :: charOfDigit (d.month % 10) :: '-' ::
    charOfDigit (d.day / 10 % 10) :: charOfDigit (d.day % 10) :: [])

/-- Whether a string is in zero-padded `YYYY-MM-DD` shape. -/
def isYMDFormat (s : String) : Bool :=
  match s.data with
  | [y1, y2, y3, y4, h1, m1, m2, h2, d1, d2] =>
    (digitVal y1).isSome && (digitVal y2).isSome && (digitVal y3).isSome &&
    (digitVal y4).isSome && (digitVal m1).isSome && (digitVal m2).isSome &&
    (digitVal d1).isSome && (digitVal d2).isSome &&
    decide (h1 = '-') && decide (h2 = '-')
  | _ => false

/-- `pd.to_datetime` on one cell of the `fecha_venta` column: a string
is parsed, an already-datetime cell passes through, anything else
(including NaN) coerces to NaT. -/
def parseVal : Value → Option Date
  | .str s => parseDate s
  | .date d => some d
  | _ => none

/-- Line 78 applied to one row: the `fecha_venta` cell is overwritten
with the parsed datetime, or with NaT when unparsable. -/
def toDatetimeRow (r : Row) : Row :=
  match getVal r "fecha_venta" with
  | some v =>
      setVal r "fecha_venta"
        (match parseVal v with
         | some d => .date d
         | none => .null)
  | none => r

/-- Line 85, `dropna(subset=['fecha_venta'])` test on one row: keep
exactly the rows whose `fecha_venta` parsed to a datetime. -/
def hasValidFecha (r : Row) : Bool :=
  match getVal r "fecha_venta" with
  | some (.date _) => true
  | _ => false

/-- Line 90: the lower bound of the accepted date range. -/
def minDate : Date := ⟨2000, 1, 1⟩

/-- Line 98 test on one row: `(fecha_venta >= min_date) &
(fecha_venta <= max_date)` with `max_date` the run-time current date. -/
def fechaInRange (today : Date) (r : Row) : Bool :=
  match getVal r "fecha_venta" with
  | some (.date d) => decide (minDate ≤ d) && decide (d ≤ today)
  | _ => false

/-- Line 104 applied to one row: the datetime cell is rewritten as its
canonical `YYYY-MM-DD` string. -/
def formatFechaRow (r : Row) : Row :=
  match getVal r "fecha_venta" with
  | some (.date d) => setVal r "fecha_venta" (.str (formatDate d))
  | _ => r

/-- Lines 73-105: the whole `fecha_venta` normalization block, guarded
by column membership: parse (line 78), drop unparsable rows (line 85),
keep rows within `[min_date, max_date]` (line 98), reformat (line 104).
(The `.any()` / count sub-guards at lines 81 and 96 only skip no-op
filters and do not change the result.) -/
def normalizeFechas (today : Date) (t : Table) : Table :=
  if "fecha_venta" ∈ t.cols then
    let parsed := t.rows.map toDatetimeRow
    let kept := parsed.filter hasValidFecha
    let ranged := kept.filter (fechaInRange today)
    ⟨t.cols, ranged.map formatFechaRow⟩
  else t

/-- Lines 46-69: the quality-repair stage, `importe` block first, then
`nombre_cliente` block. -/
def repairQuality (t : Table) : Table :=
  fillNombre (sanitizeImporte t)

/-- Lines 46-105: everything between the merge and the final export,
applied to the merged table. -/
def cleanPipeline (today : Date) (t : Table) : Table :=
  normalizeFechas today (repairQuality t)

/-- Lines 5-124: the whole script as a function of its environment.
`ventas`/`clientes` are `none` when `pd.read_csv` raises
`FileNotFoundError` (lines 9-12, `exit()`); the merge's `try/except`
(lines 24-30) exits when the join key is absent from either input
(`pd.merge` raises `KeyError`); `writeOk` is whether `to_csv`
(lines 119-124) succeeds.  `.ok` carries the table written to
`dataset_integrado.csv`; `.error` is an early exit with a diagnostic
and no output file. -/
def runPipeline (ventas clientes : Option Table) (today : Date)
    (writeOk : Bool) : Except String Table :=
  match ventas, clientes with
  | some v, some c =>
    if "cliente_id" ∈ v.cols ∧ "cliente_id" ∈ c.cols then
      if writeOk then .ok (cleanPipeline today (mergeTables v c))
      else .error "DestinationWriteFailure"
    else .error "JoinKeyMissing"
  | _, _ => .error "SourceUnavailable"

/-- All (sales row, customers row) pairs, in left-major order; stated
from the spec's words "one row per (sale, customer) pair", for
comparison with `mergeTables`. -/
def specJoinPairs (ventas clientes : List Row) : List (Row × Row) :=
  ventas.flatMap (fun s => clientes.map (fun r => (s, r)))

/-- The fate of a single row under the whole `fecha_venta` block: kept
(with the date cell rewritten to its canonical string) exactly when its
date cell parses and the parsed date lies within `[minDate, today]`;
dropped otherwise.  Stated from the spec's words, for comparison with
the staged `normalizeFechas`. -/
def normalizeRow (today : Date) (r : Row) : Option Row :=
  match getVal r "fecha_venta" with
  | some v =>
    match parseVal v with
    | some d =>
        if minDate ≤ d ∧ d ≤ today
        then some (setVal r "fecha_venta" (.str (formatDate d)))
        else none
    | none => none
  | none => none

/-- A concrete sales table (the spec's test scenario): one negative
amount with an unparsable date, one missing amount with a valid date. -/
def ventasEx : Table :=
  ⟨["cliente_id", "importe", "fecha_venta"],
   [[("cliente_id", .num 1), ("importe", .num (-5)), ("fecha_venta", .str "2022-13-40")],
    [("cliente_id", .num 2), ("importe", .null), ("fecha_venta", .str "2021-05-01")]]⟩

/-- A concrete customers table: one missing name, one present. -/
def clientesEx : Table :=
  ⟨["cliente_id", "nombre_cliente"],
   [[("cliente_id", .num 1), ("nombre_cliente", .null)],
    [("cliente_id", .num 2), ("nombre_cliente", .str "Ana")]]⟩

/-- A concrete run date for the examples. -/
def todayEx : Date := ⟨2025, 10, 12⟩

/-- The merge of the two example tables. -/
def mergedEx : Table := mergeTables ventasEx clientesEx

/-- The first row of `mergedEx`. -/
def mrow1 : Row :=
  [("cliente_id", .num 1), ("importe", .num (-5)),
   ("fecha_venta", .str "2022-13-40"), ("nombre_cliente", .null)]

/-- The one row of `cleanPipeline todayEx mergedEx`. -/
def crowEx : Row :=
  [("cliente_id", .num 2), ("importe", .num 0),
   ("fecha_venta", .str "2021-05-01"), ("nombre_cliente", .str "Ana")]

/-- A sales table with a negative amount, a valid date and no missing
amount, so the repair never has to evaluate the imputation mean. -/
def ventasEx2 : Table :=
  ⟨["cliente_id", "importe", "fecha_venta"],
   [[("cliente_id", .num 1), ("importe", .num (-5)), ("fecha_venta", .str "2021-05-01")]]⟩

/-- The merge of `ventasEx2` with the example customers table. -/
def mergedEx2 : Table := mergeTables ventasEx2 clientesEx

/-- The one row of `cleanPipeline todayEx mergedEx2`. -/
def crowEx2 : Row :=
  [("cliente_id", .num 1), ("importe", .num 0),
   ("fecha_venta", .str "2021-05-01"), ("nombre_cliente", .str "Desconocido")]

/-- The one row of `mergedEx2`. -/
def mrow3 : Row :=
  [("cliente_id", .num 1), ("importe", .num (-5)),
   ("fecha_venta", .str "2021-05-01"), ("nombre_cliente", .null)]

/-- A joined table whose every `importe` value is missing, with a valid
date, so its row reaches the output with a missing amount. -/
def nullImporteEx : Table :=
  ⟨["cliente_id", "importe", "fecha_venta", "nombre_cliente"],
   [[("cliente_id", .num 1), ("importe", .null),
     ("fecha_venta", .str "2021-05-01"), ("nombre_cliente", .str "Ana")]]⟩

/-- A sales table whose every `importe` value is missing. -/
def ventasNullEx : Table :=
  ⟨["cliente_id", "importe", "fecha_venta"],
   [[("cliente_id", .num 1), ("importe", .null), ("fecha_venta", .str "2021-05-01")]]⟩

/-- A table lacking the `importe`, `nombre_cliente` and `fecha_venta`
columns. -/
def bareEx : Table :=
  ⟨["cliente_id", "otro"], [[("cliente_id", .num 1), ("otro", .str "x")]]⟩

/-! ### Association-list lemmas -/

theorem getVal_setVal_self (r : Row) (k : String) (v : Value) :
    getVal (setVal r k v) k = (getVal r k).map (fun _ => v) := by
  induction r with
  | nil => rfl
  | cons p rest ih =>
    obtain ⟨k', v'⟩ := p
    by_cases h : k' = k <;> simp [getVal, setVal, h, ih]

theorem getVal_setVal_ne (r : Row) (k c : String) (v : Value) (h : c ≠ k) :
    getVal (setVal r k v) c = getVal r c := by
  induction r with
  | nil => rfl
  | cons p rest ih =>
    obtain ⟨k', v'⟩ := p
    by_cases h1 : k' = k <;> by_cases h2 : k' = c <;>
      simp_all [getVal, setVal]

theorem setVal_setVal (r : Row) (k : String) (v1 v2 : Value) :
    setVal (setVal r k v1) k v2 = setVal r k v2 := by
  induction r with
  | nil => rfl
  | cons p rest ih =>
    obtain ⟨k', v'⟩ := p
    by_cases h : k' = k <;> simp [setVal, h, ih]

/-! ### Per-row characterizations of the repair steps -/

theorem getVal_fixNegRow_importe (r : Row) :
    getVal (fixNegRow r) "importe" =
      match getVal r "importe" with
      | some (.num q) => some (.num (if q < 0 then 0 else q))
      | v => v := by
  unfold fixNegRow
  cases hv : getVal r "importe" with
  | none => simp [hv]
  | some v =>
    cases v with
    | num q =>
      by_cases hq : q < 0 <;> simp [hq, getVal_setVal_self, hv]
    | str s => simp [hv]
    | date d => simp [hv]
    | null => simp [hv]

theorem getVal_fixNegRow_ne (r : Row) (c : String) (h : c ≠ "importe") :
    getVal (fixNegRow r) c = getVal r c := by
  unfold fixNegRow
  cases hv : getVal r "importe" with
  | none => rfl
  | some v =>
    cases v with
    | num q =>
      by_cases hq : q < 0 <;> simp [hq, getVal_setVal_ne _ _ _ _ h]
    | str s => rfl
    | date d => rfl
    | null => rfl

theorem getVal_fillImporteRow_importe (m : Option ℚ) (r : Row) :
    getVal (fillImporteRow m r) "importe" =
      match getVal r "importe", m with
      | some .null, some q => some (.num q)
      | v, _ => v := by
  unfold fillImporteRow
  cases hv : getVal r "importe" with
  | none => cases m <;> simp [hv]
  | some v =>
    cases v with
    | num q => cases m <;> simp [hv]
    | str s => cases m <;> simp [hv]
    | date d => cases m <;> simp [hv]
    | null => cases m <;> simp [getVal_setVal_self, hv]

theorem getVal_fillImporteRow_ne (m : Option ℚ) (r : Row) (c : String)
    (h : c ≠ "importe") :
    getVal (fillImporteRow m r) c = getVal r c := by
  unfold fillImporteRow
  cases hv : getVal r "importe" with
  | none => cases m <;> rfl
  | some v =>
    cases v with
    | num q => cases m <;> rfl
    | str s => cases m <;> rfl
    | date d => cases m <;> rfl
    | null => cases m <;> simp [getVal_setVal_ne _ _ _ _ h]

theorem getVal_fillNombreRow_nombre (r : Row) :
    getVal (fillNombreRow r) "nombre_cliente" =
      if getVal r "nombre_cliente" = some .null
      then some (.str "Desconocido")
      else getVal r "nombre_cliente" := by
  unfold fillNombreRow
  cases hv : getVal r "nombre_cliente" with
  | none => simp [hv]
  | some v =>
    cases v with
    | num q => simp [hv]
    | str s => simp [hv]
    | date d => simp [hv]
    | null => simp [getVal_setVal_self, hv]

theorem getVal_fillNombreRow_ne (r : Row) (c : String)
    (h : c ≠ "nombre_cliente") :
    getVal (fillNombreRow r) c = getVal r c := by
  unfold fillNombreRow
  cases hv : getVal r "nombre_cliente" with
  | none => rfl
  | some v =>
    cases v with
    | num q => rfl
    | str s => rfl
    | date d => rfl
    | null => simp [getVal_setVal_ne _ _ _ _ h]

theorem getVal_toDatetimeRow_ne (r : Row) (c : String)
    (h : c ≠ "fecha_venta") :
    getVal (toDatetimeRow r) c = getVal r c := by
  unfold toDatetimeRow
  cases hv : getVal r "fecha_venta" with
  | none => rfl
  | some v => simp [getVal_setVal_ne _ _ _ _ h]

theorem getVal_formatFechaRow_ne (r : Row) (c : String)
    (h : c ≠ "fecha_venta") :
    getVal (formatFechaRow r) c = getVal r c := by
  unfold formatFechaRow
  cases hv : getVal r "fecha_venta" with
  | none => rfl
  | some v =>
    cases v with
    | num q => rfl
    | str s => rfl
    | date d => simp [getVal_setVal_ne _ _ _ _ h]
    | null => rfl

/-! ### Stage-level lemmas -/

theorem sanitizeImporte_cols (t : Table) : (sanitizeImporte t).cols = t.cols := by
  unfold sanitizeImporte
  split <;> rfl

theorem fillNombre_cols (t : Table) : (fillNombre t).cols = t.cols := by
  unfold fillNombre
  split <;> rfl

theorem normalizeFechas_cols (today : Date) (t : Table) :
    (normalizeFechas today t).cols = t.cols := by
  unfold normalizeFechas
  split <;> rfl

theorem repairQuality_cols (t : Table) : (repairQuality t).cols = t.cols := by
  unfold repairQuality
  rw [fillNombre_cols, sanitizeImporte_cols]

theorem sanitizeImporte_rows (t : Table) (h : "importe" ∈ t.cols) :
    (sanitizeImporte t).rows =
      t.rows.map (fun r =>
        fillImporteRow (meanImporte (fixNegatives t)) (fixNegRow r)) := by
  unfold sanitizeImporte
  rw [if_pos h]
  show (t.rows.map fixNegRow).map _ = _
  rw [List.map_map]
  rfl

theorem fillNombre_rows (t : Table) (h : "nombre_cliente" ∈ t.cols) :
    (fillNombre t).rows = t.rows.map fillNombreRow := by
  unfold fillNombre
  rw [if_pos h]

theorem importeOf_fixNegRow (r : Row) :
    importeOf (fixNegRow r) = (importeOf r).map (fun q => if q < 0 then 0 else q) := by
  unfold importeOf
  rw [getVal_fixNegRow_importe]
  cases hv : getVal r "importe" with
  | none => rfl
  | some v => cases v <;> rfl

theorem importeVals_fixNegatives (t : Table) :
    importeVals (fixNegatives t) =
      (importeVals t).map (fun q => if q < 0 then 0 else q) := by
  show (t.rows.map fixNegRow).filterMap importeOf = (t.rows.filterMap importeOf).map _
  rw [List.filterMap_map, List.map_filterMap]
  exact List.filterMap_congr (fun r _ => (importeOf_fixNegRow r).trans rfl)

theorem meanImporte_eq_none_iff (t : Table) :
    meanImporte t = none ↔ importeVals t = [] := by
  unfold meanImporte
  by_cases h : (importeVals t).isEmpty <;>
    simp_all [List.isEmpty_iff]

theorem meanImporte_fixNegatives_nonneg (t : Table) (m : ℚ)
    (h : meanImporte (fixNegatives t) = some m) : 0 ≤ m := by
  simp only [meanImporte] at h
  split at h
  · exact absurd h (by simp)
  · rw [Option.some.injEq] at h
    subst h
    apply div_nonneg
    · apply List.sum_nonneg
      intro q hq
      rw [importeVals_fixNegatives] at hq
      obtain ⟨p, _, rfl⟩ := List.mem_map.mp hq
      by_cases hp : p < 0
      · rw [if_pos hp]
      · rw [if_neg hp]
        exact not_lt.mp hp
    · positivity

theorem normalizeRow_step (today : Date) (r : Row) :
    (if hasValidFecha (toDatetimeRow r) && fechaInRange today (toDatetimeRow r)
     then some (formatFechaRow (toDatetimeRow r)) else none) = normalizeRow today r := by
  unfold normalizeRow toDatetimeRow
  cases hv : getVal r "fecha_venta" with
  | none => simp [hasValidFecha, hv]
  | some v =>
    cases hp : parseVal v with
    | none =>
      simp [hasValidFecha, getVal_setVal_self, hv, hp]
    | some d =>
      simp only [hasValidFecha, fechaInRange, formatFechaRow, getVal_setVal_self, hv, hp,
        Option.map_some, setVal_setVal]
      by_cases h1 : minDate ≤ d <;> by_cases h2 : d ≤ today <;>
        simp [h1, h2]

theorem normalizeFechas_chain (today : Date) (l : List Row) :
    (((l.map toDatetimeRow).filter hasValidFecha).filter (fechaInRange today)).map formatFechaRow
      = l.filterMap (normalizeRow today) := by
  rw [List.filter_filter]
  induction l with
  | nil => rfl
  | cons r l ih =>
    rw [List.map_cons, List.filterMap_cons, ← normalizeRow_step today r, List.filter_cons]
    cases hval : hasValidFecha (toDatetimeRow r) <;>
      cases hrange : fechaInRange today (toDatetimeRow r) <;>
        simp [hval, hrange, ih]

theorem normalizeFechas_rows (today : Date) (t : Table)
    (h : "fecha_venta" ∈ t.cols) :
    (normalizeFechas today t).rows = t.rows.filterMap (normalizeRow today) := by
  unfold normalizeFechas
  rw [if_pos h]
  exact normalizeFechas_chain today t.rows

theorem normalizeFechas_mem (today : Date) (t : Table) (r' : Row)
    (h : r' ∈ (normalizeFechas today t).rows) :
    ∃ r ∈ t.rows, ∀ c, c ≠ "fecha_venta" → getVal r' c = getVal r c := by
  unfold normalizeFechas at h
  split at h
  · obtain ⟨x, hx, rfl⟩ := List.mem_map.mp h
    have hx2 := (List.mem_filter.mp hx).1
    have hx3 := (List.mem_filter.mp hx2).1
    obtain ⟨r, hr, rfl⟩ := List.mem_map.mp hx3
    refine ⟨r, hr, fun c hc => ?_⟩
    rw [getVal_formatFechaRow_ne _ _ hc, getVal_toDatetimeRow_ne _ _ hc]
  · exact ⟨r', h, fun c _ => rfl⟩

/-! ### Digit and date-format lemmas -/

theorem stringMk_data (s : String) : String.mk s.data = s := by
  obtain ⟨l⟩ := s
  rfl

theorem digitVal_charOfDigit (n : Nat) (h : n < 10) :
    digitVal (charOfDigit n) = some n := by
  interval_cases n <;> rfl

theorem digitVal_some (c : Char) (n : Nat) (h : digitVal c = some n) :
    n < 10 ∧ charOfDigit n = c := by
  unfold digitVal at h
  split_ifs at h with h0 h1 h2 h3 h4 h5 h6 h7 h8 h9
  · subst h0; cases h; exact ⟨by norm_num, rfl⟩
  · subst h1; cases h; exact ⟨by norm_num, rfl⟩
  · subst h2; cases h; exact ⟨by norm_num, rfl⟩
  · subst h3; cases h; exact ⟨by norm_num, rfl⟩
  · subst h4; cases h; exact ⟨by norm_num, rfl⟩
  · subst h5; cases h; exact ⟨by norm_num, rfl⟩
  · subst h6; cases h; exact ⟨by norm_num, rfl⟩
  · subst h7; cases h; exact ⟨by norm_num, rfl⟩
  · subst h8; cases h; exact ⟨by norm_num, rfl⟩
  · subst h9; cases h; exact ⟨by norm_num, rfl⟩

theorem isYMDFormat_formatDate (d : Date) :
    isYMDFormat (formatDate d) = true := by
  have h : ∀ n : Nat, (digitVal (charOfDigit (n % 10))).isSome = true := by
    intro n
    rw [digitVal_charOfDigit _ (Nat.mod_lt _ (by norm_num))]
    rfl
  show (digitVal (charOfDigit (d.year / 1000 % 10))).isSome &&
    (digitVal (charOfDigit (d.year / 100 % 10))).isSome &&
    (digitVal (charOfDigit (d.year / 10 % 10))).isSome &&
    (digitVal (charOfDigit (d.year % 10))).isSome &&
    (digitVal (charOfDigit (d.month / 10 % 10))).isSome &&
    (digitVal (charOfDigit (d.month % 10))).isSome &&
    (digitVal (charOfDigit (d.day / 10 % 10))).isSome &&
    (digitVal (charOfDigit (d.day % 10))).isSome &&
    decide (('-' : Char) = '-') && decide (('-' : Char) = '-') = true
  rw [h (d.year / 1000), h (d.year / 100), h (d.year / 10), h d.year,
    h (d.month / 10), h d.month, h (d.day / 10), h d.day]
  rfl

theorem parseYMD_roundtrip (l : List Char) (dt : Date)
    (h : parseYMD l = some dt) : (formatDate dt).data = l := by
  unfold parseYMD at h
  split at h
  case h_2 => exact Option.noConfusion h
  case h_1 c1 c2 c3 c4 c5 c6 c7 c8 c9 c10 =>
    by_cases hdash : c5 = '-' ∧ c8 = '-'
    case neg => rw [if_neg hdash] at h; exact Option.noConfusion h
    rw [if_pos hdash] at h
    cases ha : digitVal c1 with
    | none => rw [ha, Option.none_bind] at h; exact Option.noConfusion h
    | some n1 =>
    rw [ha, Option.some_bind] at h
    cases hb : digitVal c2 with
    | none => rw [hb, Option.none_bind] at h; exact Option.noConfusion h
    | some n2 =>
    rw [hb, Option.some_bind] at h
    cases hc : digitVal c3 with
    | none => rw [hc, Option.none_bind] at h; exact Option.noConfusion h
    | some n3 =>
    rw [hc, Option.some_bind] at h
    cases hd : digitVal c4 with
    | none => rw [hd, Option.none_bind] at h; exact Option.noConfusion h
    | some n4 =>
    rw [hd, Option.some_bind] at h
    cases he : digitVal c6 with
    | none => rw [he, Option.none_bind] at h; exact Option.noConfusion h
    | some n5 =>
    rw [he, Option.some_bind] at h
    cases hf : digitVal c7 with
    | none => rw [hf, Option.none_bind] at h; exact Option.noConfusion h
    | some n6 =>
    rw [hf, Option.some_bind] at h
    cases hg : digitVal c9 with
    | none => rw [hg, Option.none_bind] at h; exact Option.noConfusion h
    | some n7 =>
    rw [hg, Option.some_bind] at h
    cases hh : digitVal c10 with
    | none => rw [hh, Option.none_bind] at h; exact Option.noConfusion h
    | some n8 =>
    rw [hh, Option.some_bind] at h
    by_cases hval :
        validDate (1000 * n1 + 100 * n2 + 10 * n3 + n4) (10 * n5 + n6) (10 * n7 + n8) = true
    case neg =>
      rw [if_neg hval] at h
      exact Option.noConfusion h
    rw [if_pos hval, Option.some.injEq] at h
    subst h
    obtain ⟨ha1, ha2⟩ := digitVal_some _ _ ha
    obtain ⟨hb1, hb2⟩ := digitVal_some _ _ hb
    obtain ⟨hc1, hc2⟩ := digitVal_some _ _ hc
    obtain ⟨hd1, hd2⟩ := digitVal_some _ _ hd
    obtain ⟨he1, he2⟩ := digitVal_some _ _ he
    obtain ⟨hf1, hf2⟩ := digitVal_some _ _ hf
    obtain ⟨hg1, hg2⟩ := digitVal_some _ _ hg
    obtain ⟨hh1, hh2⟩ := digitVal_some _ _ hh
    show [charOfDigit ((1000 * n1 + 100 * n2 + 10 * n3 + n4) / 1000 % 10),
      charOfDigit ((1000 * n1 + 100 * n2 + 10 * n3 + n4) / 100 % 10),
      charOfDigit ((1000 * n1 + 100 * n2 + 10 * n3 + n4) / 10 % 10),
      charOfDigit ((1000 * n1 + 100 * n2 + 10 * n3 + n4) % 10), '-',
      charOfDigit ((10 * n5 + n6) / 10 % 10), charOfDigit ((10 * n5 + n6) % 10), '-',
      charOfDigit ((10 * n7 + n8) / 10 % 10), charOfDigit ((10 * n7 + n8) % 10)]
      = [c1, c2, c3, c4, c5, c6, c7, c8, c9, c10]
    have e1 : (1000 * n1 + 100 * n2 + 10 * n3 + n4) / 1000 % 10 = n1 := by omega
    have e2 : (1000 * n1 + 100 * n2 + 10 * n3 + n4) / 100 % 10 = n2 := by omega
    have e3 : (1000 * n1 + 100 * n2 + 10 * n3 + n4) / 10 % 10 = n3 := by omega
    have e4 : (1000 * n1 + 100 * n2 + 10 * n3 + n4) % 10 = n4 := by omega
    have e5 : (10 * n5 + n6) / 10 % 10 = n5 := by omega
    have e6 : (10 * n5 + n6) % 10 = n6 := by omega
    have e7 : (10 * n7 + n8) / 10 % 10 = n7 := by omega
    have e8 : (10 * n7 + n8) % 10 = n8 := by omega
    rw [e1, e2, e3, e4, e5, e6, e7, e8, ha2, hb2, hc2, hd2, he2, hf2, hg2, hh2,
      hdash.1, hdash.2]

theorem parseDate_roundtrip (s : String) (dt : Date)
    (h : parseDate s = some dt) : formatDate dt = s := by
  have h2 := parseYMD_roundtrip s.data dt h
  rw [← stringMk_data (formatDate dt), h2, stringMk_data]

/-! ### Guard and membership helpers -/

theorem sanitizeImporte_not_col (t : Table) (h : "importe" ∉ t.cols) :
    sanitizeImporte t = t := by
  unfold sanitizeImporte
  rw [if_neg h]

theorem fillNombre_not_col (t : Table) (h : "nombre_cliente" ∉ t.cols) :
    fillNombre t = t := by
  unfold fillNombre
  rw [if_neg h]

theorem normalizeFechas_not_col (today : Date) (t : Table)
    (h : "fecha_venta" ∉ t.cols) : normalizeFechas today t = t := by
  unfold normalizeFechas
  rw [if_neg h]

theorem sanitizeImporte_mem (t : Table) (r1 : Row) (hcol : "importe" ∈ t.cols)
    (h : r1 ∈ (sanitizeImporte t).rows) :
    ∃ r0 ∈ t.rows,
      r1 = fillImporteRow (meanImporte (fixNegatives t)) (fixNegRow r0) := by
  rw [sanitizeImporte_rows t hcol] at h
  obtain ⟨r0, hr0, rfl⟩ := List.mem_map.mp h
  exact ⟨r0, hr0, rfl⟩

theorem fillNombre_mem (t : Table) (r2 : Row) (h : r2 ∈ (fillNombre t).rows) :
    ∃ r1 ∈ t.rows, ∀ c, c ≠ "nombre_cliente" → getVal r2 c = getVal r1 c := by
  unfold fillNombre at h
  split at h
  · obtain ⟨r1, hr1, rfl⟩ := List.mem_map.mp h
    exact ⟨r1, hr1, fun c hc => getVal_fillNombreRow_ne r1 c hc⟩
  · exact ⟨r2, h, fun _ _ => rfl⟩

theorem sanitizeImporte_get (t : Table) (i : Nat) (r : Row)
    (hr : t.rows[i]? = some r) :
    ∃ r', (sanitizeImporte t).rows[i]? = some r' ∧
      ∀ c, c ≠ "importe" → getVal r' c = getVal r c := by
  by_cases h : "importe" ∈ t.cols
  · rw [sanitizeImporte_rows t h, List.getElem?_map, hr]
    exact ⟨_, rfl, fun c hc => by
      rw [getVal_fillImporteRow_ne _ _ _ hc, getVal_fixNegRow_ne _ _ hc]⟩
  · rw [sanitizeImporte_not_col t h]
    exact ⟨r, hr, fun _ _ => rfl⟩

theorem fillNombre_get (t : Table) (i : Nat) (r : Row)
    (hr : t.rows[i]? = some r) :
    ∃ r', (fillNombre t).rows[i]? = some r' ∧
      ∀ c, c ≠ "nombre_cliente" → getVal r' c = getVal r c := by
  by_cases h : "nombre_cliente" ∈ t.cols
  · rw [fillNombre_rows t h, List.getElem?_map, hr]
    exact ⟨_, rfl, fun c hc => getVal_fillNombreRow_ne r c hc⟩
  · rw [fillNombre_not_col t h]
    exact ⟨r, hr, fun _ _ => rfl⟩

theorem sanitizeImporte_length (t : Table) :
    (sanitizeImporte t).rows.length = t.rows.length := by
  by_cases h : "importe" ∈ t.cols
  · rw [sanitizeImporte_rows t h, List.length_map]
  · rw [sanitizeImporte_not_col t h]

theorem fillNombre_length (t : Table) :
    (fillNombre t).rows.length = t.rows.length := by
  by_cases h : "nombre_cliente" ∈ t.cols
  · rw [fillNombre_rows t h, List.length_map]
  · rw [fillNombre_not_col t h]

/-! ### Merge characterization helpers -/

theorem merge_inner (s : Row) (cl : List Row) :
    ((cl.map (fun r => (s, r))).filter (fun p => keyEq p.1 p.2)).map
        (fun p => combineRow p.1 p.2)
      = (cl.filter (fun r => keyEq s r)).map (combineRow s) := by
  induction cl with
  | nil => rfl
  | cons r cl ih =>
    simp only [List.map_cons, List.filter_cons]
    cases hk : keyEq s r <;> simp [hk, ih]

theorem mergeTables_rows_eq (ventas clientes : Table) :
    (mergeTables ventas clientes).rows =
      ((specJoinPairs ventas.rows clientes.rows).filter
          (fun p => keyEq p.1 p.2)).map (fun p => combineRow p.1 p.2) := by
  show ventas.rows.flatMap _ = ((ventas.rows.flatMap _).filter _).map _
  induction ventas.rows with
  | nil => rfl
  | cons s l ih =>
    rw [List.flatMap_cons, List.flatMap_cons, List.filter_append, List.map_append,
      ih, merge_inner]

/-! ### Claim theorems -/

/-- C1: The Joiner produces exactly one joined row per (sale, customer)
pair with equal `cliente_id` cells — the output rows are precisely the
matching pairs of the (sale, customer) pair list, each combined into one
row — and every output row arises from such a matching pair, so rows
with no counterpart contribute nothing and a key matching several
customer rows yields one joined row per match, without deduplication. -/
theorem mergeTables_one_row_per_matching_pair (ventas clientes : Table) :
    (mergeTables ventas clientes).rows =
      ((specJoinPairs ventas.rows clientes.rows).filter
          (fun p => keyEq p.1 p.2)).map (fun p => combineRow p.1 p.2) ∧
    ∀ row ∈ (mergeTables ventas clientes).rows,
      ∃ s ∈ ventas.rows, ∃ r ∈ clientes.rows,
        keyEq s r = true ∧ row = combineRow s r := by
  refine ⟨mergeTables_rows_eq ventas clientes, ?_⟩
  intro row hrow
  rw [mergeTables_rows_eq ventas clientes] at hrow
  obtain ⟨⟨s, r⟩, hp, rfl⟩ := List.mem_map.mp hrow
  obtain ⟨hmem, hk⟩ := List.mem_filter.mp hp
  unfold specJoinPairs at hmem
  rw [List.mem_flatMap] at hmem
  obtain ⟨s', hs', hin⟩ := hmem
  obtain ⟨r', hr', heq⟩ := List.mem_map.mp hin
  rw [Prod.mk.injEq] at heq
  obtain ⟨rfl, rfl⟩ := heq
  exact ⟨s', hs', r', hr', hk, rfl⟩

/-- C1 witness: in the example tables, the first output row of the merge
arises from a matching (sale, customer) pair. -/
theorem mergeTables_one_row_per_matching_pair_witness :
    ∃ s ∈ ventasEx.rows, ∃ r ∈ clientesEx.rows,
      keyEq s r = true ∧ mrow1 = combineRow s r :=
  (mergeTables_one_row_per_matching_pair ventasEx clientesEx).2 mrow1 (by decide)

/-- C2: In the Quality Repairer, negatives are corrected first and the
imputation mean is computed over the corrected column (so zero-corrected
entries are included in the mean): the corrected column's value list is
the original one with negatives clipped to 0, and each row's `importe`
becomes its clipped value when numeric, the mean of the corrected column
when missing (staying missing if that mean is undefined), anything else
unchanged; no other column of the row is touched. -/
theorem sanitizeImporte_order_and_mean (t : Table) (h : "importe" ∈ t.cols)
    (i : Nat) (r : Row) (hr : t.rows[i]? = some r) :
    importeVals (fixNegatives t) =
      (importeVals t).map (fun q => if q < 0 then 0 else q) ∧
    ∃ r', (sanitizeImporte t).rows[i]? = some r' ∧
      getVal r' "importe" =
        (match getVal r "importe" with
         | some (.num q) => some (.num (if q < 0 then 0 else q))
         | some .null =>
            (match meanImporte (fixNegatives t) with
             | some m => some (.num m)
             | none => some .null)
         | v => v) ∧
      ∀ c, c ≠ "importe" → getVal r' c = getVal r c := by
  refine ⟨importeVals_fixNegatives t, ?_⟩
  rw [sanitizeImporte_rows t h, List.getElem?_map, hr]
  refine ⟨_, rfl, ?_, ?_⟩
  · rw [getVal_fillImporteRow_importe, getVal_fixNegRow_importe]
    cases hv : getVal r "importe" with
    | none => cases hm : meanImporte (fixNegatives t) <;> simp
    | some v =>
      cases v with
      | num q => cases hm : meanImporte (fixNegatives t) <;> simp
      | str s => cases hm : meanImporte (fixNegatives t) <;> simp
      | date d => cases hm : meanImporte (fixNegatives t) <;> simp
      | null => cases hm : meanImporte (fixNegatives t) <;> simp [hm]
  · intro c hc
    rw [getVal_fillImporteRow_ne _ _ _ hc, getVal_fixNegRow_ne _ _ hc]

/-- C2 witness: in the merged example table the corrected value list is
the clipped original one (the corrected zero is what the mean sees). -/
theorem sanitizeImporte_order_and_mean_witness :
    importeVals (fixNegatives mergedEx) =
      (importeVals mergedEx).map (fun q => if q < 0 then 0 else q) :=
  (sanitizeImporte_order_and_mean mergedEx (by decide) 0 mrow1 (by decide)).1

/-- C8: Re-running the Date Normalizer's parse-and-format step on a date
string already in canonical `YYYY-MM-DD` form (and within the valid
range) yields the identical string: whenever the parser accepts a string
as some date, formatting that date gives the string back (and the string
is indeed in `YYYY-MM-DD` shape). -/
theorem parse_format_idempotent (s : String) (d today : Date)
    (hparse : parseDate s = some d) (h1 : minDate ≤ d) (h2 : d ≤ today) :
    formatDate d = s ∧ isYMDFormat s = true := by
  have hf := parseDate_roundtrip s d hparse
  refine ⟨hf, ?_⟩
  rw [← hf]
  exact isYMDFormat_formatDate d

/-- C8 witness: the canonical in-range string "2021-05-01" round-trips
through parse-and-format unchanged. -/
theorem parse_format_idempotent_witness :
    formatDate ⟨2021, 5, 1⟩ = "2021-05-01" ∧ isYMDFormat "2021-05-01" = true :=
  parse_format_idempotent "2021-05-01" ⟨2021, 5, 1⟩ todayEx
    (by decide) (by decide) (by decide)

/-- C3 counterexample: when every `importe` in the joined table is
missing, a row reaches the final output with a missing (null) amount, so
the claimed unconditional "non-null amount ≥ 0" invariant fails. -/
theorem importe_invariant_counterexample :
    ∃ r ∈ (cleanPipeline todayEx nullImporteEx).rows,
      getVal r "importe" = some Value.null := by decide

/-- C3 (amended): provided at least one `importe` value of the joined
table is a non-missing number, every row of the final output has a
non-null amount that is ≥ 0. -/
theorem importe_invariant (t : Table) (today : Date)
    (hcol : "importe" ∈ t.cols)
    (hex : ∃ r ∈ t.rows, ∃ q : ℚ, getVal r "importe" = some (.num q)) :
    ∀ r' ∈ (cleanPipeline today t).rows,
      getVal r' "importe" ≠ some Value.null ∧
      ∀ q : ℚ, getVal r' "importe" = some (.num q) → 0 ≤ q := by
  obtain ⟨r0, hr0, q0, hq0⟩ := hex
  have hvals : q0 ∈ importeVals t :=
    List.mem_filterMap.mpr ⟨r0, hr0, by simp [importeOf, hq0]⟩
  have hne : importeVals (fixNegatives t) ≠ [] := by
    rw [importeVals_fixNegatives]
    intro hnil
    rw [List.map_eq_nil_iff] at hnil
    exact List.ne_nil_of_mem hvals hnil
  have hmean : ∃ m, meanImporte (fixNegatives t) = some m := by
    cases hm : meanImporte (fixNegatives t) with
    | some m => exact ⟨m, rfl⟩
    | none => exact absurd ((meanImporte_eq_none_iff _).mp hm) hne
  obtain ⟨m, hm⟩ := hmean
  have hm0 : 0 ≤ m := meanImporte_fixNegatives_nonneg t m hm
  have hsan : ∀ r1 ∈ (sanitizeImporte t).rows,
      getVal r1 "importe" ≠ some Value.null ∧
      ∀ q : ℚ, getVal r1 "importe" = some (.num q) → 0 ≤ q := by
    intro r1 h1
    obtain ⟨rr, hrr, rfl⟩ := sanitizeImporte_mem t r1 hcol h1
    rw [getVal_fillImporteRow_importe, getVal_fixNegRow_importe]
    cases hv : getVal rr "importe" with
    | none => exact ⟨by simp, by simp⟩
    | some v =>
      cases v with
      | num q =>
        refine ⟨by simp, ?_⟩
        intro q' hq'
        simp only [Option.some.injEq, Value.num.injEq] at hq'
        subst hq'
        by_cases hq : q < 0
        · rw [if_pos hq]
        · rw [if_neg hq]
          exact not_lt.mp hq
      | str s => exact ⟨by simp, by simp⟩
      | date d => exact ⟨by simp, by simp⟩
      | null =>
        rw [hm]
        refine ⟨by simp, ?_⟩
        intro q' hq'
        simp only [Option.some.injEq, Value.num.injEq] at hq'
        subst hq'
        exact hm0
  intro r' hr'
  obtain ⟨r2, hr2, hpres2⟩ :=
    normalizeFechas_mem today (fillNombre (sanitizeImporte t)) r' hr'
  obtain ⟨r1, hr1, hpres1⟩ := fillNombre_mem (sanitizeImporte t) r2 hr2
  have himp : getVal r' "importe" = getVal r1 "importe" := by
    rw [hpres2 "importe" (by decide), hpres1 "importe" (by decide)]
  rw [himp]
  exact hsan r1 hr1

/-- C3 witness for the amended claim: in the merged example table (one
negative amount, one missing) the surviving output row's amount is
non-null and ≥ 0. -/
theorem importe_invariant_witness :
    getVal crowEx2 "importe" ≠ some Value.null ∧
    ∀ q : ℚ, getVal crowEx2 "importe" = some (.num q) → 0 ≤ q :=
  importe_invariant mergedEx2 todayEx (by decide)
    ⟨mrow3, by decide, -5, by decide⟩ crowEx2 (by decide)

/-- C4: The name fill overwrites exactly the missing `nombre_cliente`
cells with the literal sentinel "Desconocido", leaves non-missing names
and every other field of the row untouched, applies to every row (no
row is skipped), and consequently every row of the final output has a
non-missing customer name. -/
theorem fillNombre_spec (t : Table) (today : Date)
    (h : "nombre_cliente" ∈ t.cols) :
    (∀ r : Row,
      getVal (fillNombreRow r) "nombre_cliente" =
        (if getVal r "nombre_cliente" = some Value.null
         then some (Value.str "Desconocido")
         else getVal r "nombre_cliente") ∧
      ∀ c, c ≠ "nombre_cliente" → getVal (fillNombreRow r) c = getVal r c) ∧
    (fillNombre t).rows = t.rows.map fillNombreRow ∧
    ∀ r' ∈ (cleanPipeline today t).rows,
      getVal r' "nombre_cliente" ≠ some Value.null := by
  refine ⟨fun r => ⟨getVal_fillNombreRow_nombre r,
    fun c hc => getVal_fillNombreRow_ne r c hc⟩, fillNombre_rows t h, ?_⟩
  intro r' hr'
  obtain ⟨r2, hr2, hpres⟩ :=
    normalizeFechas_mem today (fillNombre (sanitizeImporte t)) r' hr'
  have hcol2 : "nombre_cliente" ∈ (sanitizeImporte t).cols := by
    rw [sanitizeImporte_cols]
    exact h
  rw [fillNombre_rows _ hcol2] at hr2
  obtain ⟨r1, hr1, rfl⟩ := List.mem_map.mp hr2
  rw [hpres "nombre_cliente" (by decide), getVal_fillNombreRow_nombre]
  by_cases hn : getVal r1 "nombre_cliente" = some Value.null
  · rw [if_pos hn]
    simp
  · rw [if_neg hn]
    exact hn

/-- C4 witness: the example output row's customer name is non-missing. -/
theorem fillNombre_spec_witness :
    getVal crowEx2 "nombre_cliente" ≠ some Value.null :=
  (fillNombre_spec mergedEx2 todayEx (by decide)).2.2 crowEx2 (by decide)

/-- C5: The Date Normalizer keeps exactly the rows whose date cell
parses to a calendar date within `[minDate, today]` — every such row
survives with its date rewritten, all other rows are removed — and every
surviving row's date cell is the zero-padded `YYYY-MM-DD` rendering of a
date within that range. -/
theorem normalizeFechas_spec (t : Table) (today : Date)
    (h : "fecha_venta" ∈ t.cols) :
    (normalizeFechas today t).rows = t.rows.filterMap (normalizeRow today) ∧
    ∀ r' ∈ (normalizeFechas today t).rows, ∃ d : Date,
      minDate ≤ d ∧ d ≤ today ∧
      getVal r' "fecha_venta" = some (Value.str (formatDate d)) ∧
      isYMDFormat (formatDate d) = true := by
  refine ⟨normalizeFechas_rows today t h, ?_⟩
  intro r' hr'
  rw [normalizeFechas_rows today t h] at hr'
  obtain ⟨r, hr, heq⟩ := List.mem_filterMap.mp hr'
  unfold normalizeRow at heq
  cases hv : getVal r "fecha_venta" with
  | none =>
    simp only [hv] at heq
    exact Option.noConfusion heq
  | some v =>
    simp only [hv] at heq
    cases hp : parseVal v with
    | none =>
      simp only [hp] at heq
      exact Option.noConfusion heq
    | some d =>
      simp only [hp] at heq
      by_cases hrange : minDate ≤ d ∧ d ≤ today
      · rw [if_pos hrange, Option.some.injEq] at heq
        subst heq
        refine ⟨d, hrange.1, hrange.2, ?_, isYMDFormat_formatDate d⟩
        rw [getVal_setVal_self, hv]
        rfl
      · rw [if_neg hrange] at heq
        exact Option.noConfusion heq

/-- C5 witness: on the merged example table the staged normalizer agrees
with the keep-exactly-the-parsable-in-range-rows characterization. -/
theorem normalizeFechas_spec_witness :
    (normalizeFechas todayEx mergedEx).rows =
      mergedEx.rows.filterMap (normalizeRow todayEx) :=
  (normalizeFechas_spec mergedEx todayEx (by decide)).1

/-- C6: The Quality Repairer mutates only the `importe` and
`nombre_cliente` columns: it preserves the column list, the row count
and the row order, and for every row each other column's cell passes
through unchanged. -/
theorem repairQuality_frame (t : Table) :
    (repairQuality t).cols = t.cols ∧
    (repairQuality t).rows.length = t.rows.length ∧
    ∀ i : Nat, ∀ r : Row, t.rows[i]? = some r →
      ∃ r', (repairQuality t).rows[i]? = some r' ∧
        ∀ c, c ≠ "importe" → c ≠ "nombre_cliente" →
          getVal r' c = getVal r c := by
  refine ⟨repairQuality_cols t, ?_, ?_⟩
  · show (fillNombre (sanitizeImporte t)).rows.length = _
    rw [fillNombre_length, sanitizeImporte_length]
  · intro i r hr
    obtain ⟨r1, hr1, hp1⟩ := sanitizeImporte_get t i r hr
    obtain ⟨r2, hr2, hp2⟩ := fillNombre_get (sanitizeImporte t) i r1 hr1
    exact ⟨r2, hr2, fun c hc1 hc2 => (hp2 c hc2).trans (hp1 c hc1)⟩

/-- C6 witness: in the merged example table the repaired first row
agrees with the original on the key, date and any other column. -/
theorem repairQuality_frame_witness :
    ∃ r', (repairQuality mergedEx).rows[0]? = some r' ∧
      ∀ c, c ≠ "importe" → c ≠ "nombre_cliente" →
        getVal r' c = getVal mrow1 c :=
  (repairQuality_frame mergedEx).2.2 0 mrow1 (by decide)

/-- C7: The script terminates early with a diagnostic and no output
exactly when an input source is unreadable, the join key is absent from
an input table, or the final write fails; whenever it succeeds, the
written table is the total cleaning function applied to the merge, so
row-level defects (handled inside `cleanPipeline`) never cause process
failure. -/
theorem runPipeline_exit_behavior (ventas clientes : Option Table)
    (today : Date) (writeOk : Bool) :
    ((∃ out, runPipeline ventas clientes today writeOk = .ok out) ↔
      (∃ v c, ventas = some v ∧ clientes = some c ∧
        "cliente_id" ∈ v.cols ∧ "cliente_id" ∈ c.cols ∧ writeOk = true)) ∧
    ∀ v c, ventas = some v → clientes = some c →
      "cliente_id" ∈ v.cols → "cliente_id" ∈ c.cols → writeOk = true →
      runPipeline ventas clientes today writeOk =
        .ok (cleanPipeline today (mergeTables v c)) := by
  constructor
  · constructor
    · rintro ⟨out, hout⟩
      cases ventas with
      | none => simp [runPipeline] at hout
      | some v =>
        cases clientes with
        | none => simp [runPipeline] at hout
        | some c =>
          by_cases hk : "cliente_id" ∈ v.cols ∧ "cliente_id" ∈ c.cols
          · cases writeOk with
            | false => simp [runPipeline, hk] at hout
            | true => exact ⟨v, c, rfl, rfl, hk.1, hk.2, rfl⟩
          · simp [runPipeline, hk] at hout
    · rintro ⟨v, c, rfl, rfl, h1, h2, rfl⟩
      exact ⟨cleanPipeline today (mergeTables v c), by simp [runPipeline, h1, h2]⟩
  · rintro v c rfl rfl h1 h2 rfl
    simp [runPipeline, h1, h2]

/-- C7 witness: with both example sources readable, the key present on
both sides and a successful write, the script writes the cleaned merge. -/
theorem runPipeline_exit_behavior_witness :
    runPipeline (some ventasEx) (some clientesEx) todayEx true =
      .ok (cleanPipeline todayEx (mergeTables ventasEx clientesEx)) :=
  (runPipeline_exit_behavior (some ventasEx) (some clientesEx) todayEx true).2
    ventasEx clientesEx rfl rfl (by decide) (by decide) rfl

/-- C9: When every `importe` of the merged table is missing, the
pipeline neither fails nor zero-fills: the imputation mean is undefined
(`none`, pandas NaN), the fill leaves every amount missing, and the
output is still written, its rows carrying missing amounts. -/
theorem all_null_importe_no_failure (v c : Table) (today : Date)
    (hv : "cliente_id" ∈ v.cols) (hc : "cliente_id" ∈ c.cols)
    (hcol : "importe" ∈ (mergeTables v c).cols)
    (hnull : ∀ r ∈ (mergeTables v c).rows,
      getVal r "importe" = some Value.null) :
    meanImporte (fixNegatives (mergeTables v c)) = none ∧
    ∃ out, runPipeline (some v) (some c) today true = .ok out ∧
      ∀ r' ∈ out.rows, getVal r' "importe" = some Value.null := by
  have hvals : importeVals (mergeTables v c) = [] := by
    rw [importeVals, List.filterMap_eq_nil_iff]
    intro r hr
    simp [importeOf, hnull r hr]
  have hmean : meanImporte (fixNegatives (mergeTables v c)) = none := by
    rw [meanImporte_eq_none_iff, importeVals_fixNegatives, hvals]
    rfl
  refine ⟨hmean, cleanPipeline today (mergeTables v c),
    by simp [runPipeline, hv, hc], ?_⟩
  intro r' hr'
  obtain ⟨r2, hr2, hpres2⟩ := normalizeFechas_mem today _ r' hr'
  obtain ⟨r1, hr1, hpres1⟩ := fillNombre_mem _ r2 hr2
  obtain ⟨r0, hr0, rfl⟩ := sanitizeImporte_mem _ r1 hcol hr1
  rw [hpres2 "importe" (by decide), hpres1 "importe" (by decide),
    getVal_fillImporteRow_importe, getVal_fixNegRow_importe, hnull r0 hr0, hmean]

/-- C9 witness: with the all-null-amount example sales table, the
imputation mean is undefined. -/
theorem all_null_importe_no_failure_witness :
    meanImporte (fixNegatives (mergeTables ventasNullEx clientesEx)) = none :=
  (all_null_importe_no_failure ventasNullEx clientesEx todayEx
    (by decide) (by decide) (by decide) (by decide)).1

/-- C10: Each repair/normalization stage is guarded on column presence —
a merged table lacking `importe`, `nombre_cliente` or `fecha_venta`
skips the corresponding stage entirely, unchanged and without error —
and the pipeline still reaches the write whenever the inputs load and
carry the join key. -/
theorem missing_columns_skip (t : Table) (today : Date) :
    ("importe" ∉ t.cols → sanitizeImporte t = t) ∧
    ("nombre_cliente" ∉ t.cols → fillNombre t = t) ∧
    ("fecha_venta" ∉ t.cols → normalizeFechas today t = t) ∧
    ∀ v c : Table, "cliente_id" ∈ v.cols → "cliente_id" ∈ c.cols →
      ∃ out, runPipeline (some v) (some c) today true = .ok out :=
  ⟨sanitizeImporte_not_col t, fillNombre_not_col t,
   normalizeFechas_not_col today t,
   fun v c h1 h2 =>
     ⟨cleanPipeline today (mergeTables v c), by simp [runPipeline, h1, h2]⟩⟩

/-- C10 witness: on a table lacking all three repair columns every stage
is the identity, and the pipeline still writes for those inputs. -/
theorem missing_columns_skip_witness :
    sanitizeImporte bareEx = bareEx ∧ fillNombre bareEx = bareEx ∧
    normalizeFechas todayEx bareEx = bareEx ∧
    ∃ out, runPipeline (some bareEx) (some bareEx) todayEx true = .ok out :=
  ⟨(missing_columns_skip bareEx todayEx).1 (by decide),
   (missing_columns_skip bareEx todayEx).2.1 (by decide),
   (missing_columns_skip bareEx todayEx).2.2.1 (by decide),
   (missing_columns_skip bareEx todayEx).2.2.2 bareEx bareEx
     (by decide) (by decide)⟩
